import Mathlib

/-!
Shallow embedding of `calico/base.py` (the Calico test-runner core):
the `Action` / `TestCase` / `Calico` data model, the script-replay loop of
`TestCase.run_script`, the exit-status check of `TestCase.run`, and the
suite orchestration of `Calico.run`.

The interaction with the spawned process is abstracted by an environment
(`CaseEnv`): each `pexpect.expect` call is answered by an oracle (match,
end-of-stream, or timeout), indexed by the number of expect calls made so
far, and the process's final exit status is a field of the environment.
The replay loop additionally records ghost traces (lines sent, expect
calls made together with the timeout argument passed, actions left
unattempted after an abort) so that the theorems below can speak about
what the loop did and did not do.
-/

namespace CalicoPy

/-- `ActionType` (base.py line 33): expect or send. -/
inductive ActionType where
  | expect
  | send
deriving DecidableEq, Repr

/-- The `data` field of an `Action`: either a literal pattern string or the
`pexpect.EOF` end-of-stream sentinel (base.py line 54 stores one or the
other in the same field). -/
inductive PatternData where
  | lit (s : String)
  | eof
deriving DecidableEq, Repr

/-- `Action` (base.py line 40): one step of a test script. -/
structure Action where
  type_ : ActionType
  data : PatternData
  timeout : Option Nat
deriving DecidableEq, Repr

/-- `Action.__init__` (base.py lines 43-58): the data string `"_EOF_"` is
replaced by the `pexpect.EOF` sentinel, every other string is kept as a
literal pattern. -/
def Action.init (type_ : ActionType) (data : String) (timeout : Option Nat) : Action :=
  { type_ := type_
    data := if data = "_EOF_" then PatternData.eof else PatternData.lit data
    timeout := timeout }

/-- `TestCase` (base.py lines 67-123). `points` is `Option Int`
(`None` means the case is unscored). -/
structure TestCase where
  name : String
  command : String
  script : List Action
  timeout : Option Nat
  returns : Option Int
  points : Option Int
  blocker : Bool
  visible : Bool
deriving DecidableEq, Repr

/-- `TestCase.add_action` (base.py line 125): append to the script. -/
def TestCase.add_action (tc : TestCase) (a : Action) : TestCase :=
  { tc with script := tc.script ++ [a] }

/-- Outcome of one `process.expect` call: the pattern matched, `pexpect.EOF`
was raised, or `pexpect.TIMEOUT` was raised. -/
inductive ExpectOutcome where
  | matched
  | eofHit
  | timedOut
deriving DecidableEq, Repr

/-- Abstraction of one spawned process: `outcome k p t` answers the `k`-th
expect call (0-based) performed on this process, for pattern `p` with the
timeout argument `t` that the code passed to `pexpect.expect`; `exitStatus`
is what `process.exitstatus` reports after `process.close`. -/
structure CaseEnv where
  outcome : Nat → PatternData → Option Nat → ExpectOutcome
  exitStatus : Option Int

/-- The condition of base.py line 188, `action == ActionType.SEND`: it
compares the `Action` object itself (not `action.type_`) with an enum
member.  `Action` defines no custom equality, so in Python this comparison
of values of different types is always `False`. -/
def pyEqActionSend (_ : Action) (_ : ActionType) : Bool :=
  false

/-- The text handed to `process.sendline(action.data)` (base.py line 190;
this call site is unreachable, see `pyEqActionSend`). -/
def sendText : PatternData → String
  | PatternData.lit s => s
  | PatternData.eof => "_EOF_"

/-- Result of the replay loop of `run_script` (base.py lines 163-192):
the error list, plus ghost traces of what happened — `sent` are the lines
written by `sendline`, `calls` are the `(pattern, timeout)` arguments of
the expect calls that were made, `remaining` are the script actions never
attempted because of a `break`, and `forceClosed` records that
`process.close(force=True)` was called (every exit path of the loop calls
it: lines 177, 184 and 192). -/
structure ScriptOut where
  errors : List String
  sent : List String
  calls : List (PatternData × Option Nat)
  remaining : List Action
  forceClosed : Bool
deriving DecidableEq, Repr

/-- The `for action in self.script` loop of `run_script` (base.py lines
163-192).  `k` counts the expect calls made so far on this process.
An expect action calls `process.expect(action.data, timeout=action.timeout)`
(line 171: the timeout argument is the action's own timeout field, verbatim);
on `pexpect.EOF` / `pexpect.TIMEOUT` the loop records the corresponding
error, force-closes the process, and breaks.  The send branch is guarded by
the always-false comparison of line 188 (`pyEqActionSend`). -/
def scriptLoop (env : CaseEnv) : Nat → List Action → ScriptOut
  | _, [] =>
    { errors := [], sent := [], calls := [], remaining := [], forceClosed := true }
  | k, a :: rest =>
    if a.type_ = ActionType.expect then
      match env.outcome k a.data a.timeout with
      | ExpectOutcome.matched =>
        let r := scriptLoop env (k + 1) rest
        { r with calls := (a.data, a.timeout) :: r.calls }
      | ExpectOutcome.eofHit =>
        { errors := ["Expected output not received."], sent := [],
          calls := [(a.data, a.timeout)], remaining := rest, forceClosed := true }
      | ExpectOutcome.timedOut =>
        { errors := ["Timeout exceeded."], sent := [],
          calls := [(a.data, a.timeout)], remaining := rest, forceClosed := true }
    else if pyEqActionSend a ActionType.send then
      let r := scriptLoop env k rest
      { r with sent := sendText a.data :: r.sent }
    else
      scriptLoop env k rest

/-- `TestCase.run_script` (base.py lines 154-193): spawn the command
(`procOf` abstracts `pexpect.spawn`), replay the script, and return
`(process.exitstatus, errors)` — here together with the ghost traces. -/
def TestCase.run_script (tc : TestCase) (procOf : String → CaseEnv) (command : String) :
    Option Int × ScriptOut :=
  let process := procOf command
  (process.exitStatus, scriptLoop process 0 tc.script)

/-- A per-case report (base.py line 140 builds `{"errors": []}`;
the `points` key is added later by `Calico.run`, absence is `none`). -/
structure CaseReport where
  errors : List String
  points : Option Int
deriving DecidableEq, Repr

/-- The command line built by `TestCase.run` (base.py lines 142-143):
`f"{jail_prefix}{self.command}"` with
`jail_prefix = f"fakechroot chroot {os.getcwd()} "` when jailed. -/
def effectiveCommand (tc : TestCase) (cwd : String) (jailed : Bool) : String :=
  (if jailed then "fakechroot chroot " ++ cwd ++ " " else "") ++ tc.command

/-- `TestCase.run` (base.py lines 133-152): build the (possibly jailed)
command line, replay the script, and append `"Incorrect exit status."`
exactly when `self.returns is not None and exit_status != self.returns`
(lines 149-150). -/
def TestCase.run (tc : TestCase) (procOf : String → CaseEnv) (cwd : String)
    (jailed : Bool) : CaseReport :=
  let res := tc.run_script procOf (effectiveCommand tc cwd jailed)
  let errs :=
    match tc.returns with
    | none => res.2.errors
    | some r =>
      if res.1 = some r then res.2.errors else res.2.errors ++ ["Incorrect exit status."]
  { errors := errs, points := none }

/-- A value stored in the suite report: either a per-case report or the
numeric earned-points total stored under the key `"points"`. -/
inductive ReportVal where
  | caseRep (r : CaseReport)
  | num (n : Int)
deriving DecidableEq, Repr

/-- Lookup in an insertion-ordered association list (dict read). -/
def findVal {α : Type} : List (String × α) → String → Option α
  | [], _ => none
  | p :: rest, k => if p.1 = k then some p.2 else findVal rest k

/-- `OrderedDict.__setitem__`: replace the value in place if the key is
present, otherwise append the new pair at the end. -/
def setItem {α : Type} : List (String × α) → String → α → List (String × α)
  | [], k, v => [(k, v)]
  | p :: rest, k, v => if p.1 = k then (k, v) :: rest else p :: setItem rest k v

/-- `Calico` (base.py line 196): an `OrderedDict` of test cases (modelled as
an insertion-ordered association list with unique keys) plus the running
`points` total. -/
structure Calico where
  entries : List (String × TestCase)
  points : Int
deriving DecidableEq, Repr

/-- `Calico.__init__` (base.py lines 199-207): empty suite, zero points. -/
def Calico.empty : Calico :=
  { entries := [], points := 0 }

/-- `Calico.add_case` (base.py lines 209-216): `self[case.name] = case`
(dict write, last write wins) and
`self.points += case.points if case.points is not None else 0`. -/
def Calico.add_case (s : Calico) (c : TestCase) : Calico :=
  { entries := setItem s.entries c.name c
    points := s.points + (match c.points with | none => 0 | some p => p) }

/-- State produced by the case loop of `Calico.run` (base.py lines
230-251): the per-case part of the report, the earned-points accumulator,
and the ghost list of cases actually executed (with the report stored for
each). -/
structure SuiteStep where
  report : List (String × ReportVal)
  earned : Int
  executed : List (String × TestCase × CaseReport)
deriving DecidableEq, Repr

/-- The `points` bookkeeping of base.py lines 240-244 applied to a per-case
report: an unscored case's report is left alone, a scored case's report
gets `report["points"] = test.points if passed else 0` where
`passed = len(report["errors"]) == 0`. -/
def scoredReport (test : TestCase) (rep0 : CaseReport) : CaseReport :=
  match test.points with
  | none => rep0
  | some p => { rep0 with points := some (if rep0.errors.isEmpty then p else 0) }

/-- The contribution of a per-case report to `earned_points` (base.py line
245; 0 for an unscored case, whose report has no `points` entry). -/
def awardOf (rep : CaseReport) : Int :=
  match rep.points with
  | none => 0
  | some a => a

/-- The `for test_name, test in self.items()` loop of `Calico.run`
(base.py lines 230-251).  `spawn i` abstracts the process spawned for the
`i`-th executed case.  For each case: decide jailing
(`SUPPORTS_JAIL and test_name.startswith("case_")`, line 236), run the
case, store its report, for a scored case set the report's `points` entry
to `test.points if passed else 0` and add it to `earned_points`
(lines 244-245), and `break` when `test.blocker and not passed`
(lines 250-251).  Progress printing (lines 232-248) has no effect on the
report and is not modelled. -/
def runCases (spawn : Nat → String → CaseEnv) (supportsJail : Bool) (cwd : String) :
    Nat → List (String × TestCase) → SuiteStep
  | _, [] => { report := [], earned := 0, executed := [] }
  | i, (test_name, test) :: rest =>
    let jailed := supportsJail && test_name.startsWith "case_"
    let rep0 := test.run (spawn i) cwd jailed
    let rep := scoredReport test rep0
    if test.blocker && !rep0.errors.isEmpty then
      { report := [(test_name, ReportVal.caseRep rep)], earned := awardOf rep,
        executed := [(test_name, test, rep)] }
    else
      let r := runCases spawn supportsJail cwd (i + 1) rest
      { report := (test_name, ReportVal.caseRep rep) :: r.report,
        earned := awardOf rep + r.earned,
        executed := (test_name, test, rep) :: r.executed }

/-- Result of `Calico.run`: the suite report, the earned total, the ghost
executed list, and the suite object after the run (`Calico.run` never
writes to `self`, so it is the input suite unchanged). -/
structure SuiteRun where
  report : List (String × ReportVal)
  earned : Int
  executed : List (String × TestCase × CaseReport)
  post : Calico
deriving DecidableEq, Repr

/-- `Calico.run` (base.py lines 218-254): run the case loop, then store the
earned total under the key `"points"` (`report["points"] = earned_points`,
line 253 — a dict write, so an existing `"points"` key is overwritten in
place).  The `os.environ["TERM"] = "dumb"` mutation (line 228) only shapes
child-process output and is absorbed by the process abstraction. -/
def Calico.run (s : Calico) (spawn : Nat → String → CaseEnv) (supportsJail : Bool)
    (cwd : String) : SuiteRun :=
  let st := runCases spawn supportsJail cwd 0 s.entries
  { report := setItem st.report "points" (ReportVal.num st.earned)
    earned := st.earned
    executed := st.executed
    post := s }

/-! ### Derived and specification-side definitions -/

/-- The effective expect wait bound as claim C2 words it (specification
side, for comparison with the source): the action's own timeout if set,
otherwise the case-level timeout. -/
def claimedBound (tc : TestCase) (a : Action) : Option Nat :=
  match a.timeout with
  | some t => some t
  | none => tc.timeout

/-- Every expect action of the given list (starting at expect-call index
`k`) is answered with a match by the environment — the loop runs through
these actions without aborting. -/
def expectMatched (env : CaseEnv) : Nat → List Action → Prop
  | _, [] => True
  | k, a :: rest =>
    if a.type_ = ActionType.expect then
      env.outcome k a.data a.timeout = ExpectOutcome.matched ∧ expectMatched env (k + 1) rest
    else
      expectMatched env k rest

/-- Number of expect actions in a script segment. -/
def numExpects : List Action → Nat
  | [] => 0
  | a :: rest => (if a.type_ = ActionType.expect then 1 else 0) + numExpects rest

/-- The `(pattern, timeout)` arguments of the expect calls issued for a
script segment whose expect actions all match. -/
def expectCalls : List Action → List (PatternData × Option Nat)
  | [] => []
  | a :: rest =>
    if a.type_ = ActionType.expect then
      (a.data, a.timeout) :: expectCalls rest
    else
      expectCalls rest

/-- The per-case report stored by the suite loop for the case `(n, t)`
executed at loop index `i` (its `test.run` result with the `points`
bookkeeping of `scoredReport` applied). -/
def repAt (sp : Nat → String → CaseEnv) (sj : Bool) (cwd : String) (i : Nat)
    (n : String) (t : TestCase) : CaseReport :=
  scoredReport t (t.run (sp i) cwd (sj && n.startsWith "case_"))

/-- The `break` condition of base.py lines 250-251 for the case `(n, t)`
executed at loop index `i`: `test.blocker and not passed`. -/
def failsAt (sp : Nat → String → CaseEnv) (sj : Bool) (cwd : String) (i : Nat)
    (n : String) (t : TestCase) : Bool :=
  t.blocker && !(t.run (sp i) cwd (sj && n.startsWith "case_")).errors.isEmpty

/-- Sum of the points stored in the per-case reports of a run's executed
list (0 for an unscored case). -/
def sumAwards : List (String × TestCase × CaseReport) → Int
  | [] => 0
  | x :: rest => awardOf x.2.2 + sumAwards rest

/-- Sum of the point values of a list of cases, 0 standing in for `None`. -/
def totalOf : List TestCase → Int
  | [] => 0
  | c :: rest => (match c.points with | none => 0 | some p => p) + totalOf rest

/-- Add a list of cases to a suite, in order, via `add_case`. -/
def addAll (s : Calico) (cs : List TestCase) : Calico :=
  cs.foldl Calico.add_case s

/-- The dict invariant of `Calico`: case names (keys) are pairwise
distinct. -/
def keysNodup (s : Calico) : Prop :=
  (s.entries.map Prod.fst).Nodup

/-! ### Concrete processes, cases and suites used in witnesses and
counterexamples -/

/-- A process on which every expect call matches and which exits with 0. -/
def envMatch : CaseEnv :=
  { outcome := fun _ _ _ => ExpectOutcome.matched, exitStatus := some 0 }

/-- A process whose output ends immediately: every expect call raises EOF. -/
def envEof : CaseEnv :=
  { outcome := fun _ _ _ => ExpectOutcome.eofHit, exitStatus := none }

/-- A process on which every expect call times out. -/
def envTimeout : CaseEnv :=
  { outcome := fun _ _ _ => ExpectOutcome.timedOut, exitStatus := none }

/-- Spawner returning `envMatch` for every command. -/
def procOfMatch : String → CaseEnv := fun _ => envMatch

/-- Spawner returning `envEof` for every command. -/
def procOfEof : String → CaseEnv := fun _ => envEof

/-- Spawner returning `envTimeout` for every command. -/
def procOfTimeout : String → CaseEnv := fun _ => envTimeout

/-- Suite-level spawner: every executed case gets an all-matching process. -/
def spawnMatch : Nat → String → CaseEnv := fun _ => procOfMatch

/-- Suite-level spawner: every executed case gets an immediately-EOF
process. -/
def spawnEof : Nat → String → CaseEnv := fun _ => procOfEof

/-- A test case whose script consists of a single SEND action (failing
input for claim C1). -/
def tcSendOnly : TestCase :=
  { name := "t", command := "cmd", script := [Action.init ActionType.send "hello" none],
    timeout := none, returns := none, points := none, blocker := false, visible := true }

/-- A test case with a case-level timeout of 5 whose single expect action
carries no timeout of its own (counterexample input for claim C2). -/
def tcCaseTimeout : TestCase :=
  { name := "t2", command := "cmd2", script := [Action.init ActionType.expect "p" none],
    timeout := some 5, returns := none, points := none, blocker := false, visible := true }

/-- An expect action with its own timeout of 1 second. -/
def actExpectT1 : Action := Action.init ActionType.expect "x" (some 1)

/-- An expect action without a timeout of its own. -/
def actExpectNoT : Action := Action.init ActionType.expect "x" none

/-- A send action (used after an aborting expect in witnesses). -/
def actSendY : Action := Action.init ActionType.send "y" none

/-- Test case used by the witnesses of claims C2 and C3: one expect action
followed by one send action. -/
def tcExpectThenSend : TestCase :=
  { name := "t3", command := "cmd3", script := [actExpectT1, actSendY],
    timeout := none, returns := none, points := none, blocker := false, visible := true }

/-- A failing blocker case: one expect action, a process that hits EOF
makes it fail (used by the claim C5 counterexample and witness). -/
def caseBlocker : TestCase :=
  { name := "A", command := "cmdA", script := [actExpectNoT],
    timeout := none, returns := none, points := some 10, blocker := true, visible := true }

/-- A case that comes after the blocker and is named `"points"` (claim C5
counterexample). -/
def casePointsNamed : TestCase :=
  { name := "points", command := "cmdB", script := [],
    timeout := none, returns := none, points := some 20, blocker := false, visible := true }

/-- A trailing case with a fresh name (claim C5 witness). -/
def caseAfter : TestCase :=
  { name := "B", command := "cmdB", script := [],
    timeout := none, returns := none, points := some 20, blocker := false, visible := true }

/-- Suite for the claim C5 counterexample: failing blocker, then a case
named `"points"`. -/
def suitePointsClash : Calico :=
  (Calico.empty.add_case caseBlocker).add_case casePointsNamed

/-- Suite for the claim C5 witness: failing blocker, then an ordinary
case. -/
def suiteBlocked : Calico :=
  (Calico.empty.add_case caseBlocker).add_case caseAfter

/-- A scored case with an empty script: it always passes (7 points). -/
def caseScored : TestCase :=
  { name := "w", command := "cmdW", script := [],
    timeout := none, returns := none, points := some 7, blocker := false, visible := true }

/-- One-case suite for the claim C6 witness. -/
def suiteScored : Calico :=
  Calico.empty.add_case caseScored

/-- A passing scored case named `"points"` (claim C10 witness). -/
def casePointsScored : TestCase :=
  { name := "points", command := "cmdP", script := [],
    timeout := none, returns := none, points := some 5, blocker := false, visible := true }

/-- One-case suite whose only case is named `"points"` (claim C10
witness). -/
def suitePointsCase : Calico :=
  Calico.empty.add_case casePointsScored

/-- Scored case `"d"` worth 3 points (claim C9 witness, first insertion). -/
def caseDup3 : TestCase :=
  { name := "d", command := "c3", script := [],
    timeout := none, returns := none, points := some 3, blocker := false, visible := true }

/-- Scored case `"d"` worth 4 points (claim C9 witness, second insertion
under the same name). -/
def caseDup4 : TestCase :=
  { name := "d", command := "c4", script := [],
    timeout := none, returns := none, points := some 4, blocker := false, visible := true }

/-! ### Helper lemmas -/

theorem findVal_setItem_self {α : Type} (l : List (String × α)) (k : String) (v : α) :
    findVal (setItem l k v) k = some v := by
  induction l with
  | nil => simp [setItem, findVal]
  | cons p rest ih =>
    by_cases h : p.1 = k
    · simp [setItem, findVal, h]
    · simp [setItem, findVal, h, ih]

theorem findVal_setItem_ne {α : Type} (l : List (String × α)) (k k' : String) (v : α)
    (h : k' ≠ k) : findVal (setItem l k v) k' = findVal l k' := by
  have hk : ¬(k = k') := Ne.symm h
  induction l with
  | nil => simp [setItem, findVal, hk]
  | cons p rest ih =>
    by_cases hp : p.1 = k
    · have hp' : ¬(p.1 = k') := by rw [hp]; exact hk
      simp [setItem, findVal, hp, hp', hk]
    · simp [setItem, findVal, hp, ih]

theorem findVal_eq_none {α : Type} (l : List (String × α)) (k : String)
    (h : k ∉ l.map Prod.fst) : findVal l k = none := by
  induction l with
  | nil => rfl
  | cons p rest ih =>
    simp only [List.map, List.mem_cons, not_or] at h
    simp [findVal, Ne.symm h.1, ih h.2]

theorem findVal_of_mem {α : Type} (l : List (String × α)) (p : String × α)
    (hnd : (l.map Prod.fst).Nodup) (hmem : p ∈ l) : findVal l p.1 = some p.2 := by
  induction l with
  | nil => cases hmem
  | cons q rest ih =>
    simp only [List.map, List.nodup_cons] at hnd
    rcases List.mem_cons.mp hmem with hq | hq
    · subst hq
      simp [findVal]
    · have hne : q.1 ≠ p.1 := by
        intro hh
        exact hnd.1 (hh ▸ List.mem_map_of_mem Prod.fst hq)
      simp [findVal, hne, ih hnd.2 hq]

theorem setItem_keys_of_mem {α : Type} (l : List (String × α)) (k : String) (v : α)
    (h : k ∈ l.map Prod.fst) : (setItem l k v).map Prod.fst = l.map Prod.fst := by
  induction l with
  | nil => cases h
  | cons p rest ih =>
    by_cases hp : p.1 = k
    · simp [setItem, hp]
    · simp only [List.map, List.mem_cons] at h
      rcases h with h | h
      · exact absurd h.symm hp
      · simp [setItem, hp, ih h]

theorem setItem_keys_of_not_mem {α : Type} (l : List (String × α)) (k : String) (v : α)
    (h : k ∉ l.map Prod.fst) : (setItem l k v).map Prod.fst = l.map Prod.fst ++ [k] := by
  induction l with
  | nil => rfl
  | cons p rest ih =>
    simp only [List.map, List.mem_cons, not_or] at h
    simp [setItem, Ne.symm h.1, ih h.2]

theorem setItem_keys_nodup {α : Type} (l : List (String × α)) (k : String) (v : α)
    (h : (l.map Prod.fst).Nodup) : ((setItem l k v).map Prod.fst).Nodup := by
  by_cases hk : k ∈ l.map Prod.fst
  · rw [setItem_keys_of_mem l k v hk]
    exact h
  · rw [setItem_keys_of_not_mem l k v hk]
    simp [List.nodup_append, h, hk]

theorem scoredReport_errors (test : TestCase) (rep0 : CaseReport) :
    (scoredReport test rep0).errors = rep0.errors := by
  unfold scoredReport
  cases test.points <;> rfl

theorem scoredReport_points (test : TestCase) (rep0 : CaseReport) (p : Int)
    (h : test.points = some p) :
    (scoredReport test rep0).points = some (if rep0.errors = [] then p else 0) := by
  unfold scoredReport
  rw [h]
  by_cases he : rep0.errors = []
  · simp [he]
  · simp [he, List.isEmpty_iff]

theorem scriptLoop_clean_append (env : CaseEnv) (rest : List Action) :
    ∀ (pre : List Action) (k : Nat), expectMatched env k pre →
    scriptLoop env k (pre ++ rest) =
      { scriptLoop env (k + numExpects pre) rest with
        calls := expectCalls pre ++ (scriptLoop env (k + numExpects pre) rest).calls } := by
  intro pre
  induction pre with
  | nil =>
    intro k _
    rfl
  | cons a pre ih =>
    intro k hm
    by_cases ha : a.type_ = ActionType.expect
    · have hm' : env.outcome k a.data a.timeout = ExpectOutcome.matched ∧
          expectMatched env (k + 1) pre := by
        simpa [expectMatched, ha] using hm
      have hstep : scriptLoop env k ((a :: pre) ++ rest) =
          { scriptLoop env (k + 1) (pre ++ rest) with
            calls := (a.data, a.timeout) :: (scriptLoop env (k + 1) (pre ++ rest)).calls } := by
        simp [scriptLoop, ha, hm'.1]
      have hnum : numExpects (a :: pre) = 1 + numExpects pre := by
        simp [numExpects, ha]
      have hcalls : expectCalls (a :: pre) = (a.data, a.timeout) :: expectCalls pre := by
        simp [expectCalls, ha]
      have harr : k + (1 + numExpects pre) = k + 1 + numExpects pre := by
        omega
      rw [hstep, ih (k + 1) hm'.2, hnum, hcalls, harr]
      simp
    · have hm' : expectMatched env k pre := by
        simpa [expectMatched, ha] using hm
      simp only [List.cons_append, scriptLoop, ha, if_false, pyEqActionSend,
        numExpects, expectCalls, ite_false]
      simp [ih k hm']

/-- Unfolding equation for one step of the suite loop. -/
theorem runCases_cons (sp : Nat → String → CaseEnv) (sj : Bool) (cwd : String) (i : Nat)
    (n : String) (t : TestCase) (rest : List (String × TestCase)) :
    runCases sp sj cwd i ((n, t) :: rest) =
      if failsAt sp sj cwd i n t then
        { report := [(n, ReportVal.caseRep (repAt sp sj cwd i n t))],
          earned := awardOf (repAt sp sj cwd i n t),
          executed := [(n, t, repAt sp sj cwd i n t)] }
      else
        { report := (n, ReportVal.caseRep (repAt sp sj cwd i n t)) ::
              (runCases sp sj cwd (i + 1) rest).report,
          earned := awardOf (repAt sp sj cwd i n t) + (runCases sp sj cwd (i + 1) rest).earned,
          executed := (n, t, repAt sp sj cwd i n t) ::
              (runCases sp sj cwd (i + 1) rest).executed } :=
  rfl

theorem failsAt_iff (sp : Nat → String → CaseEnv) (sj : Bool) (cwd : String) (i : Nat)
    (n : String) (t : TestCase) :
    failsAt sp sj cwd i n t = true ↔
      (t.blocker = true ∧ (repAt sp sj cwd i n t).errors ≠ []) := by
  unfold failsAt repAt
  rw [scoredReport_errors]
  simp [List.isEmpty_iff]

theorem runCases_report_eq (sp : Nat → String → CaseEnv) (sj : Bool) (cwd : String) :
    ∀ (i : Nat) (l : List (String × TestCase)),
    (runCases sp sj cwd i l).report =
      (runCases sp sj cwd i l).executed.map (fun x => (x.1, ReportVal.caseRep x.2.2)) := by
  intro i l
  induction l generalizing i with
  | nil => rfl
  | cons p rest ih =>
    obtain ⟨n, t⟩ := p
    rw [runCases_cons]
    by_cases hc : failsAt sp sj cwd i n t = true
    · rw [if_pos hc]
      rfl
    · rw [if_neg hc]
      simp [ih (i + 1)]

theorem runCases_entries_split (sp : Nat → String → CaseEnv) (sj : Bool) (cwd : String) :
    ∀ (i : Nat) (l : List (String × TestCase)),
    ∃ post, l = ((runCases sp sj cwd i l).executed.map (fun x => (x.1, x.2.1))) ++ post := by
  intro i l
  induction l generalizing i with
  | nil => exact ⟨[], rfl⟩
  | cons p rest ih =>
    obtain ⟨n, t⟩ := p
    rw [runCases_cons]
    by_cases hc : failsAt sp sj cwd i n t = true
    · rw [if_pos hc]
      exact ⟨rest, rfl⟩
    · rw [if_neg hc]
      obtain ⟨post, hp⟩ := ih (i + 1)
      refine ⟨post, ?_⟩
      simp only [List.map, List.cons_append]
      exact congrArg (List.cons (n, t)) hp

theorem runCases_blocker_last (sp : Nat → String → CaseEnv) (sj : Bool) (cwd : String) :
    ∀ (i : Nat) (l : List (String × TestCase)) (n : String) (t : TestCase) (rep : CaseReport),
    (n, t, rep) ∈ (runCases sp sj cwd i l).executed →
    t.blocker = true → rep.errors ≠ [] →
    ∃ preEx, (runCases sp sj cwd i l).executed = preEx ++ [(n, t, rep)] := by
  intro i l
  induction l generalizing i with
  | nil =>
    intro n t rep h
    cases h
  | cons p rest ih =>
    obtain ⟨n0, t0⟩ := p
    intro n t rep hmem hb he
    rw [runCases_cons] at hmem ⊢
    by_cases hc : failsAt sp sj cwd i n0 t0 = true
    · rw [if_pos hc] at hmem ⊢
      simp only [List.mem_singleton] at hmem
      exact ⟨[], by rw [← hmem]; rfl⟩
    · rw [if_neg hc] at hmem ⊢
      simp only [List.mem_cons] at hmem
      rcases hmem with hmem | hmem
      · exfalso
        apply hc
        rw [failsAt_iff]
        have ht : t = t0 := congrArg (fun x => x.2.1) hmem
        have hr : rep = repAt sp sj cwd i n0 t0 := congrArg (fun x => x.2.2) hmem
        exact ⟨ht ▸ hb, hr ▸ he⟩
      · obtain ⟨preEx, hp⟩ := ih (i + 1) n t rep hmem hb he
        exact ⟨(n0, t0, repAt sp sj cwd i n0 t0) :: preEx, by simp [hp]⟩

theorem runCases_earned_eq (sp : Nat → String → CaseEnv) (sj : Bool) (cwd : String) :
    ∀ (i : Nat) (l : List (String × TestCase)),
    (runCases sp sj cwd i l).earned = sumAwards (runCases sp sj cwd i l).executed := by
  intro i l
  induction l generalizing i with
  | nil => rfl
  | cons p rest ih =>
    obtain ⟨n, t⟩ := p
    rw [runCases_cons]
    by_cases hc : failsAt sp sj cwd i n t = true
    · rw [if_pos hc]
      simp [sumAwards]
    · rw [if_neg hc]
      simp [sumAwards, ih (i + 1)]

theorem runCases_points (sp : Nat → String → CaseEnv) (sj : Bool) (cwd : String) :
    ∀ (i : Nat) (l : List (String × TestCase)) (n : String) (t : TestCase) (rep : CaseReport),
    (n, t, rep) ∈ (runCases sp sj cwd i l).executed →
    ∀ p : Int, t.points = some p →
    rep.points = some (if rep.errors = [] then p else 0) := by
  intro i l
  induction l generalizing i with
  | nil =>
    intro n t rep h
    cases h
  | cons q rest ih =>
    obtain ⟨n0, t0⟩ := q
    intro n t rep hmem p hp
    have hval : (n, t, rep) = (n0, t0, repAt sp sj cwd i n0 t0) →
        rep.points = some (if rep.errors = [] then p else 0) := by
      intro hh
      have ht : t = t0 := congrArg (fun x => x.2.1) hh
      have hr : rep = repAt sp sj cwd i n0 t0 := congrArg (fun x => x.2.2) hh
      have herr : rep.errors = (t0.run (sp i) cwd (sj && n0.startsWith "case_")).errors := by
        rw [hr]
        exact scoredReport_errors t0 _
      have hpts : rep.points =
          some (if (t0.run (sp i) cwd (sj && n0.startsWith "case_")).errors = [] then p else 0) := by
        rw [hr]
        exact scoredReport_points t0 _ p (ht ▸ hp)
      rw [hpts, herr]
    rw [runCases_cons] at hmem
    by_cases hc : failsAt sp sj cwd i n0 t0 = true
    · rw [if_pos hc] at hmem
      exact hval (List.mem_singleton.mp hmem)
    · rw [if_neg hc] at hmem
      rcases List.mem_cons.mp hmem with hh | hh
      · exact hval hh
      · exact ih (i + 1) n t rep hh p hp

theorem setItem_filter_key {α : Type} (l : List (String × α)) (k : String) (v : α)
    (h : (l.map Prod.fst).Nodup) :
    ((setItem l k v).filter (fun q => q.1 == k)).length = 1 := by
  induction l with
  | nil => simp [setItem]
  | cons p rest ih =>
    simp only [List.map, List.nodup_cons] at h
    by_cases hp : p.1 = k
    · have hk : k ∉ rest.map Prod.fst := hp ▸ h.1
      have hrest : rest.filter (fun q => q.1 == k) = [] := by
        rw [List.filter_eq_nil_iff]
        intro q hq
        simp only [beq_iff_eq]
        intro hqe
        exact hk (hqe ▸ List.mem_map_of_mem Prod.fst hq)
      simp [setItem, hp, hrest]
    · simp [setItem, List.filter, hp, ih h.2]

/-! ### Claim theorems -/

/-- Claim C1 (code_bug): replaying a script that consists of one SEND action.
Base.py line 188 compares the `Action` object itself with `ActionType.SEND`
(`action == ActionType.SEND`, embedded as `pyEqActionSend`, always `False`),
so `process.sendline` is never called: nothing is written to the process
(`sent = []`), although the action is a SEND action reached during replay.
As the claim says, no error is recorded for it either. -/
theorem claim_C1_code_bug :
    (tcSendOnly.run_script procOfMatch "cmd").2.sent = []
    ∧ (tcSendOnly.run_script procOfMatch "cmd").2.errors = []
    ∧ tcSendOnly.script = [Action.init ActionType.send "hello" none]
    ∧ (Action.init ActionType.send "hello" none).type_ = ActionType.send :=
  ⟨rfl, rfl, rfl, rfl⟩

/-- Claim C2 (corrected), counterexample: a case with case-level timeout 5
whose expect action carries no timeout of its own.  The claim mandates that
the wait be bounded by the case-level timeout (`claimedBound` = `some 5`),
but the expect call actually issued by `run_script` passes `none`
(`pexpect`'s unbounded wait) as the timeout argument: the case-level timeout
is never consulted (base.py line 171 passes `action.timeout` verbatim). -/
theorem claim_C2_counterexample :
    tcCaseTimeout.timeout = some 5
    ∧ claimedBound tcCaseTimeout (Action.init ActionType.expect "p" none) = some 5
    ∧ (tcCaseTimeout.run_script procOfMatch "cmd2").2.calls = [(PatternData.lit "p", none)]
    ∧ ¬((tcCaseTimeout.run_script procOfMatch "cmd2").2.calls =
        [(PatternData.lit "p",
          claimedBound tcCaseTimeout (Action.init ActionType.expect "p" none))]) := by
  decide

/-- Claim C7 (confirmed): after any sequence of `add_case` calls the suite's
`points` equal the sum of all added cases' point values (0 standing in for
`None`), and `Calico.run` leaves the suite — in particular its `points` —
unchanged. -/
theorem claim_C7_theorem (cs : List TestCase) (sp : Nat → String → CaseEnv)
    (sj : Bool) (cwd : String) :
    (addAll Calico.empty cs).points = totalOf cs
    ∧ ((addAll Calico.empty cs).run sp sj cwd).post.points
        = (addAll Calico.empty cs).points := by
  have key : ∀ (cs' : List TestCase) (s : Calico),
      (addAll s cs').points = s.points + totalOf cs' := by
    intro cs'
    induction cs' with
    | nil =>
      intro s
      simp [addAll, totalOf]
    | cons c cs' ih =>
      intro s
      have hstep : addAll s (c :: cs') = addAll (s.add_case c) cs' := rfl
      have hpt : (s.add_case c).points =
          s.points + (match c.points with | none => 0 | some p => p) := rfl
      rw [hstep, ih (s.add_case c), hpt]
      simp only [totalOf]
      omega
  refine ⟨?_, rfl⟩
  have h := key cs Calico.empty
  simpa [Calico.empty] using h

/-- Claim C8 (corrected), counterexample: the user-supplied literal string
`"_EOF_"` used as the data of an EXPECT action IS turned into the
end-of-stream sentinel by `Action.__init__` (base.py line 54). -/
theorem claim_C8_counterexample :
    (Action.init ActionType.expect "_EOF_" none).data = PatternData.eof := by
  decide

/-- Claim C8 (corrected), amended: every user-supplied literal other than the
reserved string `"_EOF_"` is kept as a literal pattern, which is distinct
from the end-of-stream sentinel; the literal `"_EOF_"` itself is converted
into the sentinel (see the counterexample). -/
theorem claim_C8_theorem (s : String) (t : Option Nat) (h : s ≠ "_EOF_") :
    (Action.init ActionType.expect s t).data = PatternData.lit s
    ∧ PatternData.lit s ≠ PatternData.eof := by
  constructor
  · simp [Action.init, h]
  · intro hh
    cases hh

/-- Witness for `claim_C8_theorem` at the literal `"hello"`. -/
theorem claim_C8_witness :
    (Action.init ActionType.expect "hello" none).data = PatternData.lit "hello"
    ∧ PatternData.lit "hello" ≠ PatternData.eof :=
  claim_C8_theorem "hello" none (by decide)

/-- Claim C9 (confirmed): adding a second case whose name equals that of a
previously added case leaves only the newer case stored under that name
(dict write, one entry for the name), while the suite's total points count
the point values of both the old and the new case. -/
theorem claim_C9_theorem (s : Calico) (c1 c2 : TestCase)
    (hnd : keysNodup s) (hname : c1.name = c2.name) :
    findVal ((s.add_case c1).add_case c2).entries c1.name = some c2
    ∧ (((s.add_case c1).add_case c2).entries.filter (fun q => q.1 == c1.name)).length = 1
    ∧ ((s.add_case c1).add_case c2).points =
        s.points + (match c1.points with | none => 0 | some p => p)
          + (match c2.points with | none => 0 | some p => p) := by
  have hset : ((s.add_case c1).add_case c2).entries =
      setItem (setItem s.entries c1.name c1) c2.name c2 := rfl
  refine ⟨?_, ?_, rfl⟩
  · rw [hset, hname]
    exact findVal_setItem_self _ _ _
  · rw [hset, hname]
    exact setItem_filter_key _ c2.name c2 (setItem_keys_nodup s.entries c2.name c1 hnd)

/-- Witness for `claim_C9_theorem`: cases `"d"` worth 3 and 4 points added to
the empty suite. -/
theorem claim_C9_witness :
    findVal ((Calico.empty.add_case caseDup3).add_case caseDup4).entries caseDup3.name
        = some caseDup4
    ∧ (((Calico.empty.add_case caseDup3).add_case caseDup4).entries.filter
        (fun q => q.1 == caseDup3.name)).length = 1
    ∧ ((Calico.empty.add_case caseDup3).add_case caseDup4).points =
        Calico.empty.points + (match caseDup3.points with | none => 0 | some p => p)
          + (match caseDup4.points with | none => 0 | some p => p) :=
  claim_C9_theorem Calico.empty caseDup3 caseDup4 (by unfold keysNodup; decide) rfl

/-- Claim C2 (corrected), amended: for every EXPECT action reached during
replay (all earlier expect actions matched), the wait is bounded by the
action's own timeout field — `none` meaning an unbounded wait, the
case-level timeout is not consulted (see the counterexample); when that
wait times out, exactly the string `"Timeout exceeded."` is the error list,
the process is force-closed, and no action after the aborting one is
replayed (`remaining = post`, no further expect calls, nothing sent). -/
theorem claim_C2_theorem (procOf : String → CaseEnv) (command : String) (tc : TestCase)
    (pre : List Action) (a : Action) (post : List Action)
    (hscript : tc.script = pre ++ a :: post)
    (ha : a.type_ = ActionType.expect)
    (hpre : expectMatched (procOf command) 0 pre)
    (hout : (procOf command).outcome (numExpects pre) a.data a.timeout
        = ExpectOutcome.timedOut) :
    (tc.run_script procOf command).2.errors = ["Timeout exceeded."]
    ∧ (tc.run_script procOf command).2.forceClosed = true
    ∧ (tc.run_script procOf command).2.remaining = post
    ∧ (tc.run_script procOf command).2.calls = expectCalls pre ++ [(a.data, a.timeout)]
    ∧ (tc.run_script procOf command).2.sent = [] := by
  have hmain : scriptLoop (procOf command) 0 tc.script =
      { errors := ["Timeout exceeded."], sent := [],
        calls := expectCalls pre ++ [(a.data, a.timeout)],
        remaining := post, forceClosed := true } := by
    rw [hscript, scriptLoop_clean_append (procOf command) (a :: post) pre 0 hpre,
      Nat.zero_add]
    simp [scriptLoop, ha, hout]
  have hrs : (tc.run_script procOf command).2 = scriptLoop (procOf command) 0 tc.script :=
    rfl
  rw [hrs, hmain]
  exact ⟨rfl, rfl, rfl, rfl, rfl⟩

/-- Witness for `claim_C2_theorem`: a script with one expect action (its own
timeout 1) followed by a send action, on a process that times out. -/
theorem claim_C2_witness :
    (tcExpectThenSend.run_script procOfTimeout "c").2.errors = ["Timeout exceeded."]
    ∧ (tcExpectThenSend.run_script procOfTimeout "c").2.forceClosed = true
    ∧ (tcExpectThenSend.run_script procOfTimeout "c").2.remaining = [actSendY]
    ∧ (tcExpectThenSend.run_script procOfTimeout "c").2.calls =
        expectCalls [] ++ [(actExpectT1.data, actExpectT1.timeout)]
    ∧ (tcExpectThenSend.run_script procOfTimeout "c").2.sent = [] :=
  claim_C2_theorem procOfTimeout "c" tcExpectThenSend [] actExpectT1 [actSendY]
    rfl rfl trivial rfl

/-- Claim C3 (confirmed): for every EXPECT action reached during replay whose
wait ends with end-of-stream before a match, exactly the string
`"Expected output not received."` is the error list, the process is
force-closed, and no action after the aborting one is attempted
(`remaining = post`, no further expect calls, nothing sent). -/
theorem claim_C3_theorem (procOf : String → CaseEnv) (command : String) (tc : TestCase)
    (pre : List Action) (a : Action) (post : List Action)
    (hscript : tc.script = pre ++ a :: post)
    (ha : a.type_ = ActionType.expect)
    (hpre : expectMatched (procOf command) 0 pre)
    (hout : (procOf command).outcome (numExpects pre) a.data a.timeout
        = ExpectOutcome.eofHit) :
    (tc.run_script procOf command).2.errors = ["Expected output not received."]
    ∧ (tc.run_script procOf command).2.forceClosed = true
    ∧ (tc.run_script procOf command).2.remaining = post
    ∧ (tc.run_script procOf command).2.calls = expectCalls pre ++ [(a.data, a.timeout)]
    ∧ (tc.run_script procOf command).2.sent = [] := by
  have hmain : scriptLoop (procOf command) 0 tc.script =
      { errors := ["Expected output not received."], sent := [],
        calls := expectCalls pre ++ [(a.data, a.timeout)],
        remaining := post, forceClosed := true } := by
    rw [hscript, scriptLoop_clean_append (procOf command) (a :: post) pre 0 hpre,
      Nat.zero_add]
    simp [scriptLoop, ha, hout]
  have hrs : (tc.run_script procOf command).2 = scriptLoop (procOf command) 0 tc.script :=
    rfl
  rw [hrs, hmain]
  exact ⟨rfl, rfl, rfl, rfl, rfl⟩

/-- Witness for `claim_C3_theorem`: the same script on a process whose output
ends immediately. -/
theorem claim_C3_witness :
    (tcExpectThenSend.run_script procOfEof "c").2.errors = ["Expected output not received."]
    ∧ (tcExpectThenSend.run_script procOfEof "c").2.forceClosed = true
    ∧ (tcExpectThenSend.run_script procOfEof "c").2.remaining = [actSendY]
    ∧ (tcExpectThenSend.run_script procOfEof "c").2.calls =
        expectCalls [] ++ [(actExpectT1.data, actExpectT1.timeout)]
    ∧ (tcExpectThenSend.run_script procOfEof "c").2.sent = [] :=
  claim_C3_theorem procOfEof "c" tcExpectThenSend [] actExpectT1 [actSendY]
    rfl rfl trivial rfl

/-- Claim C4 (confirmed): `TestCase.run` appends `"Incorrect exit status."`
to the script-replay errors if and only if `returns` is set and the exit
status obtained from the replay differs from it; when `returns` is unset or
the exit status equals it, the errors are exactly the script-replay
errors. -/
theorem claim_C4_theorem (procOf : String → CaseEnv) (cwd : String) (jailed : Bool)
    (tc : TestCase) :
    ((tc.run procOf cwd jailed).errors =
        (tc.run_script procOf (effectiveCommand tc cwd jailed)).2.errors
          ++ ["Incorrect exit status."]
      ↔ tc.returns ≠ none
        ∧ (tc.run_script procOf (effectiveCommand tc cwd jailed)).1 ≠ tc.returns)
    ∧ ((tc.run procOf cwd jailed).errors =
        (tc.run_script procOf (effectiveCommand tc cwd jailed)).2.errors
      ↔ (tc.returns = none
        ∨ (tc.run_script procOf (effectiveCommand tc cwd jailed)).1 = tc.returns)) := by
  have hne : ∀ (l : List String) (x : String), ¬(l ++ [x] = l) := by
    intro l x h
    have hlen := congrArg List.length h
    simp at hlen
  cases hr : tc.returns with
  | none =>
    refine ⟨⟨fun h => ?_, fun h => ?_⟩, ⟨fun _ => Or.inl rfl, fun _ => ?_⟩⟩
    · have hrun : (tc.run procOf cwd jailed).errors =
          (tc.run_script procOf (effectiveCommand tc cwd jailed)).2.errors := by
        simp [TestCase.run, hr]
      exact absurd (hrun.symm.trans h).symm (hne _ _)
    · exact absurd rfl h.1
    · simp [TestCase.run, hr]
  | some r =>
    by_cases hx : (tc.run_script procOf (effectiveCommand tc cwd jailed)).1 = some r
    · have hrun : (tc.run procOf cwd jailed).errors =
          (tc.run_script procOf (effectiveCommand tc cwd jailed)).2.errors := by
        simp [TestCase.run, hr, hx]
      rw [hrun]
      constructor
      · constructor
        · intro h
          exact absurd h.symm (hne _ _)
        · rintro ⟨-, hcon⟩
          exact absurd hx hcon
      · simp [hx]
    · have hrun : (tc.run procOf cwd jailed).errors =
          (tc.run_script procOf (effectiveCommand tc cwd jailed)).2.errors
            ++ ["Incorrect exit status."] := by
        simp [TestCase.run, hr, hx]
      rw [hrun]
      constructor
      · constructor
        · intro _
          exact ⟨by simp, hx⟩
        · intro _
          rfl
      · constructor
        · intro h
          exact absurd h (hne _ _)
        · rintro (h | h)
          · cases h
          · exact absurd h hx

/-- Claim C5 (corrected), counterexample: a failing blocker case `"A"`
followed in insertion order by a case named `"points"`.  The blocker is
executed and fails, the later case is not executed — but, contrary to the
claim, the later case's name DOES appear as a key of the returned suite
report, because `Calico.run` stores the earned total under the key
`"points"` (base.py line 253). -/
theorem claim_C5_counterexample :
    caseBlocker.blocker = true
    ∧ suitePointsClash.entries = [("A", caseBlocker), ("points", casePointsNamed)]
    ∧ casePointsNamed.name = "points"
    ∧ (suitePointsClash.run spawnEof false "/").executed
        = [("A", caseBlocker, CaseReport.mk ["Expected output not received."] (some 0))]
    ∧ findVal (suitePointsClash.run spawnEof false "/").report "points"
        = some (ReportVal.num 0)
    ∧ ¬(findVal (suitePointsClash.run spawnEof false "/").report casePointsNamed.name
        = none) := by
  decide

/-- Claim C5 (corrected), amended: provided no case bears the reserved name
`"points"`, whenever a blocker case executed by `Calico.run` fails, the
executed cases are exactly the suite entries up to and including that
blocker (no later case is executed), every executed case — up to and
including the failed blocker — appears in the returned report under its name
with its per-case report, and no later case's name appears as a key of the
returned report. -/
theorem claim_C5_theorem (sp : Nat → String → CaseEnv) (sj : Bool) (cwd : String)
    (s : Calico)
    (hpts : ∀ q ∈ s.entries, q.1 ≠ "points")
    (hnd : keysNodup s)
    (nb : String) (b : TestCase) (rb : CaseReport)
    (hmem : (nb, b, rb) ∈ (s.run sp sj cwd).executed)
    (hblock : b.blocker = true)
    (hfail : rb.errors ≠ []) :
    ∃ preEx post,
      s.entries = preEx.map (fun x => (x.1, x.2.1)) ++ (nb, b) :: post
      ∧ (s.run sp sj cwd).executed = preEx ++ [(nb, b, rb)]
      ∧ (∀ q ∈ post, findVal (s.run sp sj cwd).report q.1 = none)
      ∧ (∀ x ∈ preEx, findVal (s.run sp sj cwd).report x.1
          = some (ReportVal.caseRep x.2.2))
      ∧ findVal (s.run sp sj cwd).report nb = some (ReportVal.caseRep rb) := by
  have hexec : (s.run sp sj cwd).executed = (runCases sp sj cwd 0 s.entries).executed := rfl
  have hrep : (s.run sp sj cwd).report =
      setItem (runCases sp sj cwd 0 s.entries).report "points"
        (ReportVal.num (runCases sp sj cwd 0 s.entries).earned) := rfl
  obtain ⟨preEx, hlast⟩ :=
    runCases_blocker_last sp sj cwd 0 s.entries nb b rb (hexec ▸ hmem) hblock hfail
  obtain ⟨post, hsplit⟩ := runCases_entries_split sp sj cwd 0 s.entries
  have hentries : s.entries = preEx.map (fun x => (x.1, x.2.1)) ++ (nb, b) :: post := by
    rw [hsplit, hlast]
    simp
  have hkeys : s.entries.map Prod.fst =
      preEx.map (fun x => x.1) ++ nb :: post.map Prod.fst := by
    rw [hentries]
    simp [List.map_map, Function.comp]
  have hnd' : (preEx.map (fun x => x.1) ++ nb :: post.map Prod.fst).Nodup := by
    have hh := hnd
    unfold keysNodup at hh
    rwa [hkeys] at hh
  rw [List.nodup_append] at hnd'
  obtain ⟨hndpre, hndcons, hdisj⟩ := hnd'
  rw [List.nodup_cons] at hndcons
  have hrepkeys : (runCases sp sj cwd 0 s.entries).report.map Prod.fst =
      preEx.map (fun x => x.1) ++ [nb] := by
    rw [runCases_report_eq, hlast]
    simp [List.map_map, Function.comp]
  have hrepnd : ((runCases sp sj cwd 0 s.entries).report.map Prod.fst).Nodup := by
    rw [hrepkeys, List.nodup_append]
    refine ⟨hndpre, List.nodup_singleton nb, ?_⟩
    intro a ha hb
    rw [List.mem_singleton] at hb
    rw [hb] at ha
    exact (hdisj ha) (List.mem_cons_self nb _)
  refine ⟨preEx, post, hentries, hexec ▸ hlast, ?_, ?_, ?_⟩
  · intro q hq
    have hq1 : q.1 ∈ post.map Prod.fst := List.mem_map_of_mem Prod.fst hq
    have hqentries : q ∈ s.entries := by
      rw [hentries]
      exact List.mem_append_right _ (List.mem_cons_of_mem _ hq)
    have hqpts : q.1 ≠ "points" := hpts q hqentries
    rw [hrep, findVal_setItem_ne _ _ _ _ hqpts]
    apply findVal_eq_none
    rw [hrepkeys]
    intro hin
    rcases List.mem_append.mp hin with hin | hin
    · exact (hdisj hin) (List.mem_cons_of_mem nb hq1)
    · rw [List.mem_singleton] at hin
      exact hndcons.1 (hin ▸ hq1)
  · intro x hx
    have hxexec : x ∈ (runCases sp sj cwd 0 s.entries).executed := by
      rw [hlast]
      exact List.mem_append_left _ hx
    have hxentries : (x.1, x.2.1) ∈ s.entries := by
      rw [hentries]
      exact List.mem_append_left _ (List.mem_map_of_mem _ hx)
    have hxpts : x.1 ≠ "points" := by
      have hh := hpts (x.1, x.2.1) hxentries
      simpa using hh
    rw [hrep, findVal_setItem_ne _ _ _ _ hxpts]
    have hmemrep : (x.1, ReportVal.caseRep x.2.2)
        ∈ (runCases sp sj cwd 0 s.entries).report := by
      rw [runCases_report_eq]
      exact List.mem_map_of_mem _ hxexec
    have hh := findVal_of_mem _ (x.1, ReportVal.caseRep x.2.2) hrepnd hmemrep
    simpa using hh
  · have hbexec : (nb, b, rb) ∈ (runCases sp sj cwd 0 s.entries).executed := hexec ▸ hmem
    have hbentries : (nb, b) ∈ s.entries := by
      rw [hentries]
      exact List.mem_append_right _ (List.mem_cons_self _ _)
    have hbpts : nb ≠ "points" := by
      have hh := hpts (nb, b) hbentries
      simpa using hh
    rw [hrep, findVal_setItem_ne _ _ _ _ hbpts]
    have hmemrep : (nb, ReportVal.caseRep rb)
        ∈ (runCases sp sj cwd 0 s.entries).report := by
      rw [runCases_report_eq]
      exact List.mem_map_of_mem _ hbexec
    have hh := findVal_of_mem _ (nb, ReportVal.caseRep rb) hrepnd hmemrep
    simpa using hh

/-- Witness for `claim_C5_theorem`: blocker `"A"` failing on an
immediately-EOF process, followed by case `"B"` which never runs and never
appears in the report. -/
theorem claim_C5_witness :
    ∃ preEx post,
      suiteBlocked.entries = preEx.map (fun x => (x.1, x.2.1)) ++ ("A", caseBlocker) :: post
      ∧ (suiteBlocked.run spawnEof false "/").executed =
          preEx ++ [("A", caseBlocker, CaseReport.mk ["Expected output not received."] (some 0))]
      ∧ (∀ q ∈ post, findVal (suiteBlocked.run spawnEof false "/").report q.1 = none)
      ∧ (∀ x ∈ preEx, findVal (suiteBlocked.run spawnEof false "/").report x.1
          = some (ReportVal.caseRep x.2.2))
      ∧ findVal (suiteBlocked.run spawnEof false "/").report "A"
          = some (ReportVal.caseRep (CaseReport.mk ["Expected output not received."] (some 0))) :=
  claim_C5_theorem spawnEof false "/" suiteBlocked (by decide)
    (by unfold keysNodup; decide) "A" caseBlocker
    (CaseReport.mk ["Expected output not received."] (some 0)) (by decide) rfl (by decide)

/-- Claim C6 (confirmed): for every executed scored case the points stored in
its per-case report are the case's full points if its error list is empty and
0 otherwise (never an intermediate value), and the top-level `"points"` entry
of the suite report equals the sum of the stored awards over exactly the
executed cases. -/
theorem claim_C6_theorem (sp : Nat → String → CaseEnv) (sj : Bool) (cwd : String)
    (s : Calico) :
    (∀ (n : String) (t : TestCase) (rep : CaseReport),
      (n, t, rep) ∈ (s.run sp sj cwd).executed →
      ∀ p : Int, t.points = some p → rep.points = some (if rep.errors = [] then p else 0))
    ∧ (s.run sp sj cwd).earned = sumAwards (s.run sp sj cwd).executed
    ∧ findVal (s.run sp sj cwd).report "points"
        = some (ReportVal.num (sumAwards (s.run sp sj cwd).executed)) := by
  refine ⟨?_, ?_, ?_⟩
  · intro n t rep hmem p hp
    exact runCases_points sp sj cwd 0 s.entries n t rep hmem p hp
  · exact runCases_earned_eq sp sj cwd 0 s.entries
  · have h1 : findVal (s.run sp sj cwd).report "points"
        = some (ReportVal.num (runCases sp sj cwd 0 s.entries).earned) :=
      findVal_setItem_self _ _ _
    rw [h1, runCases_earned_eq]
    rfl

/-- Witness for `claim_C6_theorem`: the scored case `"w"` (7 points) passes
and its stored report carries exactly 7 points. -/
theorem claim_C6_witness :
    (CaseReport.mk [] (some 7)).points
      = some (if (CaseReport.mk [] (some 7)).errors = [] then (7 : Int) else 0) :=
  (claim_C6_theorem spawnMatch false "/" suiteScored).1 "w" caseScored
    (CaseReport.mk [] (some 7)) (by decide) 7 rfl

/-- Claim C10 (confirmed): when a case named `"points"` is executed by the
run, the returned suite report maps the key `"points"` to the numeric earned
total — never to a per-case report, so the executed case's own report is
absent — while the case was executed and scored like any other (its stored
award obeys the scoring rule and the earned total sums the stored awards). -/
theorem claim_C10_theorem (sp : Nat → String → CaseEnv) (sj : Bool) (cwd : String)
    (s : Calico) (c : TestCase) (rep : CaseReport)
    (hmem : ("points", c, rep) ∈ (s.run sp sj cwd).executed) :
    findVal (s.run sp sj cwd).report "points"
        = some (ReportVal.num (s.run sp sj cwd).earned)
    ∧ (∀ r : CaseReport, ReportVal.num (s.run sp sj cwd).earned ≠ ReportVal.caseRep r)
    ∧ (s.run sp sj cwd).earned = sumAwards (s.run sp sj cwd).executed
    ∧ (∀ p : Int, c.points = some p →
        rep.points = some (if rep.errors = [] then p else 0)) := by
  refine ⟨?_, ?_, ?_, ?_⟩
  · show findVal (setItem (runCases sp sj cwd 0 s.entries).report "points"
        (ReportVal.num (runCases sp sj cwd 0 s.entries).earned)) "points"
      = some (ReportVal.num (runCases sp sj cwd 0 s.entries).earned)
    exact findVal_setItem_self _ _ _
  · intro r hr
    cases hr
  · exact runCases_earned_eq sp sj cwd 0 s.entries
  · intro p hp
    exact runCases_points sp sj cwd 0 s.entries "points" c rep hmem p hp

/-- Witness for `claim_C10_theorem`: a passing 5-point case named `"points"`
is executed, yet the returned report maps `"points"` to the number 5, not to
the case's report. -/
theorem claim_C10_witness :
    findVal (suitePointsCase.run spawnMatch false "/").report "points"
        = some (ReportVal.num (suitePointsCase.run spawnMatch false "/").earned)
    ∧ (∀ r : CaseReport, ReportVal.num (suitePointsCase.run spawnMatch false "/").earned
        ≠ ReportVal.caseRep r)
    ∧ (suitePointsCase.run spawnMatch false "/").earned
        = sumAwards (suitePointsCase.run spawnMatch false "/").executed
    ∧ (∀ p : Int, casePointsScored.points = some p →
        (CaseReport.mk [] (some 5)).points
          = some (if (CaseReport.mk [] (some 5)).errors = [] then p else 0)) :=
  claim_C10_theorem spawnMatch false "/" suitePointsCase casePointsScored
    (CaseReport.mk [] (some 5)) (by decide)

end CalicoPy
